import Mathlib

/-!
Verification development for the `scientific_calculator` tool of the
MCP-Session-Code repository (`src/server.py`).

Modelling conventions:
* IEEE double-precision values are modelled as exact rationals (`ℚ`).
  All arithmetic the claims exercise is exact in double precision as well,
  so the model agrees with the code on those inputs; transcendental library
  kernels (`sin`, `cos`, `exp`, `log`, `atan`) are modelled by truncated
  series whose distance to the IEEE result is far below the formatter's
  `1e-10` threshold on every argument the claims exercise.
* Python's `eval`, restricted to the arithmetic-expression language the
  spec's grammar describes, is embedded as an explicit tokenizer,
  recursive-descent parser (with Python's precedence and right-associative
  `**`) and a tree-walking evaluator over the tagged numeric union
  int / float / complex.
* Exceptions are embedded as an `Except` error type; the `try/except`
  ladder of `scientific_calculator` becomes the total function `errString`.
* IEEE `inf`/`nan` (which no claim exercises numerically) are carried as a
  distinguished constructor; Python's `str(float)` is modelled by an exact
  decimal expansion truncated at 60 fractional digits.
-/

/-- The epsilon `1e-10` used by the result formatter of `server.py`. -/
def EPS : ℚ := 1 / 10000000000

/-- Python `int(x)` on a float: truncation toward zero. -/
def pyInt (q : ℚ) : ℤ := if q < 0 then -⌊-q⌋ else ⌊q⌋

/-- Python `round(x)` on a float with no second argument:
nearest integer, ties to even. -/
def pyRound (q : ℚ) : ℤ :=
  let f : ℤ := ⌊q⌋
  let d : ℚ := q - f
  if d < 1 / 2 then f
  else if 1 / 2 < d then f + 1
  else if f % 2 = 0 then f else f + 1

/-- Decimal expansion of a fractional part `r ∈ [0,1)`, one digit per step,
stopping when the remainder vanishes or after `fuel` digits. -/
def fracDigits : ℕ → ℚ → String
  | 0, _ => ""
  | fuel + 1, r =>
    let d : ℤ := ⌊r * 10⌋
    let r2 : ℚ := r * 10 - d
    toString d ++ (if r2 = 0 then "" else fracDigits fuel r2)

/-- Model of Python `str(x)` for a (finite) float `x`: sign, integer part,
decimal point, fractional digits, with `"2.0"` for integral values.
Python prints the shortest digit string that round-trips and switches to
exponent notation for very large or small magnitudes; the model instead
prints the exact expansion truncated at 60 digits.  No claim inspects a
digit string where the two disagree. -/
def fltStr (q : ℚ) : String :=
  let sign := if q < 0 then "-" else ""
  let a : ℚ := |q|
  let ip : ℤ := ⌊a⌋
  let fr : ℚ := a - ip
  sign ++ toString ip ++ "." ++ (if fr = 0 then "0" else fracDigits 60 fr)

/-- The exact rational value of the IEEE double `math.pi`. -/
def piD : ℚ := 884279719003555 / 281474976710656

/-- The exact rational value of the IEEE double `math.e`. -/
def eD : ℚ := 6121026514868073 / 2251799813685248

/-- The exact rational value of the IEEE double `math.tau` (twice `piD`). -/
def tauD : ℚ := 2 * piD

/-- Series loop for sine: accumulates `term_k = (-1)^k x^(2k+1)/(2k+1)!`. -/
def sinGo (x2 : ℚ) : ℕ → ℕ → ℚ → ℚ → ℚ
  | 0, _, _, acc => acc
  | fuel + 1, k, term, acc =>
    sinGo x2 fuel (k + 1) (term * (-x2) / ((2 * k + 2) * (2 * k + 3))) (acc + term)

/-- Model of the double-precision `sin` kernel: truncated Maclaurin series
(26 terms), accurate to far below `1e-10` for the small arguments the
claims exercise. -/
def sinT (x : ℚ) : ℚ := sinGo (x * x) 26 0 x 0

/-- Series loop for cosine. -/
def cosGo (x2 : ℚ) : ℕ → ℕ → ℚ → ℚ → ℚ
  | 0, _, _, acc => acc
  | fuel + 1, k, term, acc =>
    cosGo x2 fuel (k + 1) (term * (-x2) / ((2 * k + 1) * (2 * k + 2))) (acc + term)

/-- Model of the double-precision `cos` kernel (truncated series). -/
def cosT (x : ℚ) : ℚ := cosGo (x * x) 26 0 1 0

/-- Series loop for the exponential. -/
def expGo (x : ℚ) : ℕ → ℕ → ℚ → ℚ → ℚ
  | 0, _, _, acc => acc
  | fuel + 1, k, term, acc =>
    expGo x fuel (k + 1) (term * x / (k + 1)) (acc + term)

/-- Model of the double-precision `exp` kernel (40-term series). -/
def expT (x : ℚ) : ℚ := expGo x 40 0 1 0

/-- Series loop for `artanh`: sums `t^(2k+1)/(2k+1)`. -/
def atanhGo (t2 : ℚ) : ℕ → ℕ → ℚ → ℚ → ℚ
  | 0, _, _, acc => acc
  | fuel + 1, k, pw, acc =>
    atanhGo t2 fuel (k + 1) (pw * t2) (acc + pw / (2 * k + 1))

/-- Truncated `artanh` series (40 terms). -/
def atanhT (t : ℚ) : ℚ := atanhGo (t * t) 40 0 t 0

/-- Rational model of `ln 2`. -/
def ln2Q : ℚ := 2 * atanhT (1 / 3)

/-- Range reduction for the logarithm: halve / double until the argument
lies in `[1, 2)`, returning the reduced argument and the binary exponent. -/
def lnShrink : ℕ → ℚ → ℚ × ℤ
  | 0, x => (x, 0)
  | fuel + 1, x =>
    if 2 ≤ x then
      let p := lnShrink fuel (x / 2)
      (p.1, p.2 + 1)
    else if x < 1 then
      let p := lnShrink fuel (x * 2)
      (p.1, p.2 - 1)
    else (x, 0)

/-- Model of the double-precision natural-log kernel for positive
arguments: range reduction to `[1,2)` followed by the `artanh` series. -/
def lnT (x : ℚ) : ℚ :=
  if x ≤ 0 then 0
  else
    let p := lnShrink 2200 x
    p.2 * ln2Q + 2 * atanhT ((p.1 - 1) / (p.1 + 1))

/-- Alternating series loop for `atan`. -/
def atanGo (x2 : ℚ) : ℕ → ℕ → ℚ → ℚ → ℚ
  | 0, _, _, acc => acc
  | fuel + 1, k, pw, acc =>
    atanGo x2 fuel (k + 1) (pw * (-x2)) (acc + pw / (2 * k + 1))

/-- Truncated `atan` series for `|x| ≤ 1` (60 terms). -/
def atanSeries (x : ℚ) : ℚ := atanGo (x * x) 60 0 x 0

/-- Model of the double-precision `atan` kernel: series on `[-1,1]`,
reflection `atan x = ±π/2 - atan (1/x)` outside. -/
def atanT (x : ℚ) : ℚ :=
  if x ≤ -1 then -(piD / 2) - atanSeries (1 / x)
  else if 1 ≤ x then piD / 2 - atanSeries (1 / x)
  else atanSeries x

/-- Model of `atan2(y, x)` with the usual quadrant correction. -/
def atan2T (y x : ℚ) : ℚ :=
  if 0 < x then atanT (y / x)
  else if x < 0 then
    (if 0 ≤ y then atanT (y / x) + piD else atanT (y / x) - piD)
  else
    (if 0 < y then piD / 2 else if y < 0 then -(piD / 2) else 0)

/-- Newton iteration for the integer square root (fuel-bounded). -/
def isqrtGo (n : ℕ) : ℕ → ℕ → ℕ
  | 0, x => x
  | fuel + 1, x =>
    let y := (x + n / x) / 2
    if y < x then isqrtGo n fuel y else x

/-- Integer square root by Newton's method. -/
def isqrt (n : ℕ) : ℕ := if n ≤ 1 then n else isqrtGo n 200 n

/-- Exact square root of a natural number, when it exists (soundness needs
only the `r * r = n` check, not optimality of `isqrt`). -/
def natSqrtExact (n : ℕ) : Option ℕ :=
  let r := isqrt n
  if r * r = n then some r else none

/-- Model of the double-precision square root of a nonnegative rational:
exact on exact squares (where the IEEE result is exact too), series
approximation otherwise. -/
def sqrtD (q : ℚ) : ℚ :=
  if q ≤ 0 then 0
  else
    match natSqrtExact q.num.toNat, natSqrtExact q.den with
    | some a, some b => (a : ℚ) / (b : ℚ)
    | _, _ => expT (lnT q / 2)

/-- Marker for the IEEE special float values `inf`, `-inf`, `nan`
(constants in the calculator's namespace; no claim exercises their
arithmetic). -/
inductive NF where
  | pinf
  | ninf
  | nan
  deriving DecidableEq, Repr

/-- The tagged numeric union produced by evaluating an expression:
Python `int`, `float`, `complex`, a 2-tuple of floats (the result of
`polar`), a non-numeric object rendered by `str` as the stored text
(function objects, the empty `__builtins__` dict), or an IEEE special.
CPython renders the registry's lambda entries with an address-bearing
repr; the model uses the `<built-in function name>` form for every
function object, which no claim inspects. -/
inductive Val where
  | vint (n : ℤ)
  | vreal (q : ℚ)
  | vcomplex (re im : ℚ)
  | tup (a b : ℚ)
  | other (s : String)
  | nonfin (k : NF)
  deriving DecidableEq, Repr

/-- The exception classes distinguished by the `try/except` ladder of
`scientific_calculator`. -/
inductive Err where
  | zeroDiv
  | valErr (msg : String)
  | ovfErr
  | typeErr (msg : String)
  | synErr
  | nameErr (name : String)
  | otherErr (msg : String)
  deriving DecidableEq, Repr

/-- The `except` ladder of `scientific_calculator` (lines 124-135 of
`server.py`): each exception class is rendered as an `"Error: ..."`
string. -/
def errString : Err → String
  | .zeroDiv => "Error: Division by zero"
  | .valErr m => "Error: Invalid mathematical operation - " ++ m
  | .ovfErr => "Error: Result too large to compute"
  | .typeErr m => "Error: Invalid expression type - " ++ m
  | .synErr => "Error: Invalid mathematical expression syntax"
  | .nameErr n => "Error: name '" ++ n ++ "' is not defined"
  | .otherErr m => "Error: " ++ m

/-- View a numeric value as a complex pair; `none` for non-numerics. -/
def asC : Val → Option (ℚ × ℚ)
  | .vint n => some ((n : ℚ), 0)
  | .vreal q => some (q, 0)
  | .vcomplex a b => some (a, b)
  | _ => none

/-- Whether a value is of Python type `complex`. -/
def isCplx : Val → Bool
  | .vcomplex _ _ => true
  | _ => false

/-- Whether a value is of Python type `int`. -/
def isInt : Val → Bool
  | .vint _ => true
  | _ => false

/-- Whether a rational is an integer. -/
def isIntQ (q : ℚ) : Bool := q.den = 1

/-- Python unary minus. -/
def vneg : Val → Except Err Val
  | .vint n => .ok (.vint (-n))
  | .vreal q => .ok (.vreal (-q))
  | .vcomplex a b => .ok (.vcomplex (-a) (-b))
  | .nonfin .pinf => .ok (.nonfin .ninf)
  | .nonfin .ninf => .ok (.nonfin .pinf)
  | .nonfin .nan => .ok (.nonfin .nan)
  | _ => .error (.typeErr "bad operand type for unary -")

/-- Python unary plus. -/
def vpos : Val → Except Err Val
  | .vint n => .ok (.vint n)
  | .vreal q => .ok (.vreal q)
  | .vcomplex a b => .ok (.vcomplex a b)
  | .nonfin k => .ok (.nonfin k)
  | _ => .error (.typeErr "bad operand type for unary +")

/-- Python `+` with the int → float → complex promotion ladder.
Arithmetic on the IEEE specials is outside the rational model and is
mapped to a distinguished failure (no claim exercises it). -/
def vadd (v w : Val) : Except Err Val :=
  match v, w with
  | .vint a, .vint b => .ok (.vint (a + b))
  | .nonfin _, _ => .error (.otherErr "nonfinite value")
  | _, .nonfin _ => .error (.otherErr "nonfinite value")
  | _, _ =>
    match asC v, asC w with
    | some (a, b), some (c, d) =>
      if isCplx v ∨ isCplx w then .ok (.vcomplex (a + c) (b + d))
      else .ok (.vreal (a + c))
    | _, _ => .error (.typeErr "unsupported operand type(s) for +")

/-- Python binary `-`. -/
def vsub (v w : Val) : Except Err Val :=
  match v, w with
  | .vint a, .vint b => .ok (.vint (a - b))
  | .nonfin _, _ => .error (.otherErr "nonfinite value")
  | _, .nonfin _ => .error (.otherErr "nonfinite value")
  | _, _ =>
    match asC v, asC w with
    | some (a, b), some (c, d) =>
      if isCplx v ∨ isCplx w then .ok (.vcomplex (a - c) (b - d))
      else .ok (.vreal (a - c))
    | _, _ => .error (.typeErr "unsupported operand type(s) for -")

/-- Python `*`. -/
def vmul (v w : Val) : Except Err Val :=
  match v, w with
  | .vint a, .vint b => .ok (.vint (a * b))
  | .nonfin _, _ => .error (.otherErr "nonfinite value")
  | _, .nonfin _ => .error (.otherErr "nonfinite value")
  | _, _ =>
    match asC v, asC w with
    | some (a, b), some (c, d) =>
      if isCplx v ∨ isCplx w then .ok (.vcomplex (a * c - b * d) (a * d + b * c))
      else .ok (.vreal (a * c))
    | _, _ => .error (.typeErr "unsupported operand type(s) for *")

/-- Python true division `/`: always float (or complex) valued; a zero
divisor of any numeric type raises `ZeroDivisionError`.  Float division
is modelled exactly (the IEEE result differs by at most one rounding,
far below the formatter's threshold). -/
def vdiv (v w : Val) : Except Err Val :=
  match v, w with
  | .nonfin _, _ => .error (.otherErr "nonfinite value")
  | _, .nonfin _ => .error (.otherErr "nonfinite value")
  | _, _ =>
    match asC v, asC w with
    | some (a, b), some (c, d) =>
      if c = 0 ∧ d = 0 then .error .zeroDiv
      else if isCplx v ∨ isCplx w then
        .ok (.vcomplex ((a * c + b * d) / (c * c + d * d))
                       ((b * c - a * d) / (c * c + d * d)))
      else .ok (.vreal (a / c))
    | _, _ => .error (.typeErr "unsupported operand type(s) for /")

/-- Python floor division `//`: unsupported for complex, `int` result on
ints, floored float otherwise; zero divisor raises `ZeroDivisionError`. -/
def vfdiv (v w : Val) : Except Err Val :=
  match v, w with
  | .nonfin _, _ => .error (.otherErr "nonfinite value")
  | _, .nonfin _ => .error (.otherErr "nonfinite value")
  | .vint a, .vint b =>
    if b = 0 then .error .zeroDiv else .ok (.vint (Int.fdiv a b))
  | _, _ =>
    if isCplx v ∨ isCplx w then
      .error (.typeErr "unsupported operand type(s) for //")
    else
      match asC v, asC w with
      | some (a, _), some (c, _) =>
        if c = 0 then .error .zeroDiv else .ok (.vreal ((⌊a / c⌋ : ℤ) : ℚ))
      | _, _ => .error (.typeErr "unsupported operand type(s) for //")

/-- Python modulo `%`: sign follows the divisor; unsupported for complex;
zero divisor raises `ZeroDivisionError`. -/
def vmod (v w : Val) : Except Err Val :=
  match v, w with
  | .nonfin _, _ => .error (.otherErr "nonfinite value")
  | _, .nonfin _ => .error (.otherErr "nonfinite value")
  | .vint a, .vint b =>
    if b = 0 then .error .zeroDiv else .ok (.vint (Int.fmod a b))
  | _, _ =>
    if isCplx v ∨ isCplx w then
      .error (.typeErr "unsupported operand type(s) for %")
    else
      match asC v, asC w with
      | some (a, _), some (c, _) =>
        if c = 0 then .error .zeroDiv
        else .ok (.vreal (a - c * ((⌊a / c⌋ : ℤ) : ℚ)))
      | _, _ => .error (.typeErr "unsupported operand type(s) for %")

/-- Complex logarithm model (principal branch), used by complex power. -/
def clogT (a b : ℚ) : ℚ × ℚ := (lnT (a * a + b * b) / 2, atan2T b a)

/-- Complex exponential model. -/
def cexpT (x y : ℚ) : ℚ × ℚ := (expT x * cosT y, expT x * sinT y)

/-- Complex power model `z ** w = exp(w · log z)` (CPython's complex pow),
with CPython's special cases for a zero base. -/
def cpowT (z w : ℚ × ℚ) : Except Err Val :=
  if z.1 = 0 ∧ z.2 = 0 then
    if w.1 = 0 ∧ w.2 = 0 then .ok (.vcomplex 1 0)
    else if w.2 = 0 ∧ 0 < w.1 then .ok (.vcomplex 0 0)
    else .error .zeroDiv
  else
    let l := clogT z.1 z.2
    let e := cexpT (w.1 * l.1 - w.2 * l.2) (w.1 * l.2 + w.2 * l.1)
    .ok (.vcomplex e.1 e.2)

/-- Integer power of a rational by an integer exponent (exact). -/
def qzpow (b : ℚ) (e : ℤ) : ℚ :=
  if 0 ≤ e then b ^ e.toNat else if b = 0 then 0 else (b ^ (-e).toNat)⁻¹

/-- Python `**`:
* `int ** int` stays `int` for nonnegative exponents, float otherwise;
* real `**` real with an integral exponent is exact;
* real `**` real with a non-integral exponent: positive bases give a real
  (modelled as `exp(e·ln b)`), a negative base falls through to complex
  power (this is how `cbrt(-8) = (-8)**(1/3)` becomes complex);
* anything involving a complex operand uses complex power;
* `0` to a negative power raises `ZeroDivisionError`. -/
def vpow (v w : Val) : Except Err Val :=
  match v, w with
  | .nonfin _, _ => .error (.otherErr "nonfinite value")
  | _, .nonfin _ => .error (.otherErr "nonfinite value")
  | .vint a, .vint b =>
    if 0 ≤ b then .ok (.vint (a ^ b.toNat))
    else if a = 0 then .error .zeroDiv
    else .ok (.vreal ((a : ℚ) ^ (-b).toNat)⁻¹ )
  | _, _ =>
    match asC v, asC w with
    | some (a, b), some (c, d) =>
      if isCplx v ∨ isCplx w then cpowT (a, b) (c, d)
      else if isIntQ c then
        if a = 0 ∧ c < 0 then .error .zeroDiv
        else .ok (.vreal (qzpow a c.num))
      else if 0 < a then .ok (.vreal (expT (c * lnT a)))
      else if a = 0 then
        (if 0 < c then .ok (.vreal 0) else .error .zeroDiv)
      else cpowT (a, b) (c, d)
    | _, _ => .error (.typeErr "unsupported operand type(s) for **")

/-- Coerce an argument to a real number the way `math.*` functions do:
ints and floats are accepted, complex raises `TypeError`, the IEEE
specials leave the rational model. -/
def asReal : Val → Except Err ℚ
  | .vint n => .ok (n : ℚ)
  | .vreal q => .ok q
  | .vcomplex _ _ => .error (.typeErr "must be real number, not complex")
  | .nonfin _ => .error (.otherErr "nonfinite value")
  | _ => .error (.typeErr "must be real number")

/-- Coerce an argument to a complex pair the way `cmath.*` functions do. -/
def asCplxArg : Val → Except Err (ℚ × ℚ)
  | .vint n => .ok ((n : ℚ), 0)
  | .vreal q => .ok (q, 0)
  | .vcomplex a b => .ok (a, b)
  | .nonfin _ => .error (.otherErr "nonfinite value")
  | _ => .error (.typeErr "must be a number")

/-- Coerce an argument to a Python `int` (for `gcd`, `lcm`, `factorial`). -/
def asInt : Val → Except Err ℤ
  | .vint n => .ok n
  | _ => .error (.typeErr "object cannot be interpreted as an integer")

/-- Wrong-argument-count `TypeError`, as raised by the builtins. -/
def arityErr (name : String) : Err :=
  .typeErr (name ++ "() called with the wrong number of arguments")

/-- A `math` unary real function with an optional domain guard:
`dom x = false` raises `ValueError("math domain error")`. -/
def mathFn1 (name : String) (dom : ℚ → Bool) (f : ℚ → ℚ) :
    List Val → Except Err Val
  | [v] => do
    let x ← asReal v
    if dom x then .ok (.vreal (f x))
    else .error (.valErr "math domain error")
  | _ => .error (arityErr name)

/-- `math.sin`. -/
def sinF : List Val → Except Err Val := mathFn1 "sin" (fun _ => true) sinT

/-- `math.cos`. -/
def cosF : List Val → Except Err Val := mathFn1 "cos" (fun _ => true) cosT

/-- `math.tan`. -/
def tanF : List Val → Except Err Val :=
  mathFn1 "tan" (fun _ => true) (fun x => sinT x / cosT x)

/-- `math.asin`: `ValueError` outside `[-1, 1]`.  The value is modelled by
`atan (x / sqrt (1 - x^2))` over the series kernels. -/
def asinF : List Val → Except Err Val :=
  mathFn1 "asin" (fun x => decide (-1 ≤ x ∧ x ≤ 1))
    (fun x => if x * x = 1 then x * (piD / 2) else atanT (x / sqrtD (1 - x * x)))

/-- `math.acos`: `ValueError` outside `[-1, 1]`. -/
def acosF : List Val → Except Err Val :=
  mathFn1 "acos" (fun x => decide (-1 ≤ x ∧ x ≤ 1))
    (fun x => piD / 2 - (if x * x = 1 then x * (piD / 2)
                         else atanT (x / sqrtD (1 - x * x))))

/-- `math.atan`. -/
def atanF : List Val → Except Err Val := mathFn1 "atan" (fun _ => true) atanT

/-- `math.atan2(y, x)`. -/
def atan2F : List Val → Except Err Val
  | [v, w] => do
    let y ← asReal v
    let x ← asReal w
    .ok (.vreal (atan2T y x))
  | _ => .error (arityErr "atan2")

/-- `math.sinh` (no overflow in the model). -/
def sinhF : List Val → Except Err Val :=
  mathFn1 "sinh" (fun _ => true) (fun x => (expT x - expT (-x)) / 2)

/-- `math.cosh`. -/
def coshF : List Val → Except Err Val :=
  mathFn1 "cosh" (fun _ => true) (fun x => (expT x + expT (-x)) / 2)

/-- `math.tanh`. -/
def tanhF : List Val → Except Err Val :=
  mathFn1 "tanh" (fun _ => true)
    (fun x => (expT x - expT (-x)) / (expT x + expT (-x)))

/-- `math.asinh`. -/
def asinhF : List Val → Except Err Val :=
  mathFn1 "asinh" (fun _ => true) (fun x => lnT (x + sqrtD (x * x + 1)))

/-- `math.acosh`: `ValueError` below 1. -/
def acoshF : List Val → Except Err Val :=
  mathFn1 "acosh" (fun x => decide (1 ≤ x))
    (fun x => lnT (x + sqrtD (x * x - 1)))

/-- `math.atanh`: `ValueError` outside `(-1, 1)`. -/
def atanhF : List Val → Except Err Val :=
  mathFn1 "atanh" (fun x => decide (-1 < x ∧ x < 1))
    (fun x => lnT ((1 + x) / (1 - x)) / 2)

/-- `math.log`: real-only; raises `ValueError("math domain error")` on
every non-positive argument.  Accepts an optional base. -/
def logF : List Val → Except Err Val
  | [v] => do
    let x ← asReal v
    if 0 < x then .ok (.vreal (lnT x))
    else .error (.valErr "math domain error")
  | [v, w] => do
    let x ← asReal v
    let b ← asReal w
    if 0 < x ∧ 0 < b then
      if b = 1 then .error .zeroDiv else .ok (.vreal (lnT x / lnT b))
    else .error (.valErr "math domain error")
  | _ => .error (arityErr "log")

/-- `math.log10`. -/
def log10F : List Val → Except Err Val :=
  mathFn1 "log10" (fun x => decide (0 < x)) (fun x => lnT x / lnT 10)

/-- `math.log2`. -/
def log2F : List Val → Except Err Val :=
  mathFn1 "log2" (fun x => decide (0 < x)) (fun x => lnT x / ln2Q)

/-- `math.exp` (overflow not modelled). -/
def expF : List Val → Except Err Val := mathFn1 "exp" (fun _ => true) expT

/-- `cmath.sqrt`: complex-valued square root; always returns a `complex`,
with `sqrt` of a negative real landing on the positive imaginary axis. -/
def sqrtF : List Val → Except Err Val
  | [v] => do
    let z ← asCplxArg v
    if z.2 = 0 then
      if 0 ≤ z.1 then .ok (.vcomplex (sqrtD z.1) 0)
      else .ok (.vcomplex 0 (sqrtD (-z.1)))
    else
      let m := sqrtD (z.1 * z.1 + z.2 * z.2)
      let re := sqrtD ((m + z.1) / 2)
      let im := sqrtD ((m - z.1) / 2)
      .ok (.vcomplex re (if z.2 < 0 then -im else im))
  | _ => .error (arityErr "sqrt")

/-- The registry's `cbrt`: the lambda `x ** (1/3)` of `server.py`
(so a negative real argument takes the complex branch of `**`). -/
def cbrtF : List Val → Except Err Val
  | [v] => vpow v (.vreal (1 / 3))
  | _ => .error (arityErr "cbrt")

/-- Builtin `pow` (two- and three-argument forms). -/
def powF : List Val → Except Err Val
  | [v, w] => vpow v w
  | [v, w, m] => do
    let a ← asInt v
    let b ← asInt w
    let md ← asInt m
    if md = 0 then .error (.valErr "pow() 3rd argument cannot be 0")
    else if b < 0 then .error (.valErr "base is not invertible for the given modulus")
    else .ok (.vint ((a ^ b.toNat) % md))
  | _ => .error (arityErr "pow")

/-- Builtin `abs`: type-preserving on int/float, magnitude on complex. -/
def absF : List Val → Except Err Val
  | [.vint n] => .ok (.vint |n|)
  | [.vreal q] => .ok (.vreal |q|)
  | [.vcomplex a b] => .ok (.vreal (sqrtD (a * a + b * b)))
  | [.nonfin _] => .error (.otherErr "nonfinite value")
  | [_] => .error (.typeErr "bad operand type for abs()")
  | _ => .error (arityErr "abs")

/-- `math.ceil`. -/
def ceilF : List Val → Except Err Val
  | [.vint n] => .ok (.vint n)
  | [.vreal q] => .ok (.vint (-⌊-q⌋))
  | [.nonfin _] => .error (.otherErr "nonfinite value")
  | [_] => .error (.typeErr "must be real number, not complex")
  | _ => .error (arityErr "ceil")

/-- `math.floor`. -/
def floorF : List Val → Except Err Val
  | [.vint n] => .ok (.vint n)
  | [.vreal q] => .ok (.vint ⌊q⌋)
  | [.nonfin _] => .error (.otherErr "nonfinite value")
  | [_] => .error (.typeErr "must be real number, not complex")
  | _ => .error (arityErr "floor")

/-- `math.trunc`. -/
def truncF : List Val → Except Err Val
  | [.vint n] => .ok (.vint n)
  | [.vreal q] => .ok (.vint (pyInt q))
  | [.nonfin _] => .error (.otherErr "nonfinite value")
  | [_] => .error (.typeErr "must be real number, not complex")
  | _ => .error (arityErr "trunc")

/-- Builtin `round`: banker's rounding; the two-argument form rounds at a
decimal position. -/
def roundF : List Val → Except Err Val
  | [.vint n] => .ok (.vint n)
  | [.vreal q] => .ok (.vint (pyRound q))
  | [.nonfin _] => .error (.otherErr "nonfinite value")
  | [_] => .error (.typeErr "type does not define __round__")
  | [.vreal q, .vint k] =>
    if 0 ≤ k then .ok (.vreal ((pyRound (q * 10 ^ k.toNat) : ℚ) / 10 ^ k.toNat))
    else .ok (.vreal ((pyRound (q / 10 ^ (-k).toNat) : ℚ) * 10 ^ (-k).toNat))
  | [.vint n, .vint _] => .ok (.vint n)
  | _ => .error (arityErr "round")

/-- `math.degrees`. -/
def degreesF : List Val → Except Err Val :=
  mathFn1 "degrees" (fun _ => true) (fun x => x * 180 / piD)

/-- `math.radians`. -/
def radiansF : List Val → Except Err Val :=
  mathFn1 "radians" (fun _ => true) (fun x => x * piD / 180)

/-- `math.factorial`: `ValueError` on negative integers, `TypeError` on
non-integers. -/
def factorialF : List Val → Except Err Val
  | [.vint n] =>
    if n < 0 then .error (.valErr "factorial() not defined for negative values")
    else .ok (.vint (Nat.factorial n.toNat))
  | [_] => .error (.typeErr "object cannot be interpreted as an integer")
  | _ => .error (arityErr "factorial")

/-- `math.gcd`. -/
def gcdF : List Val → Except Err Val
  | [v, w] => do
    let a ← asInt v
    let b ← asInt w
    .ok (.vint (Int.gcd a b))
  | _ => .error (arityErr "gcd")

/-- `math.lcm` (Python ≥ 3.9 branch of line 68 of `server.py`;
`lcm(0, 0) = 0`). -/
def lcmF : List Val → Except Err Val
  | [v, w] => do
    let a ← asInt v
    let b ← asInt w
    if Int.gcd a b = 0 then .ok (.vint 0)
    else .ok (.vint (|a * b| / Int.gcd a b))
  | _ => .error (arityErr "lcm")

/-- Builtin `complex` constructor (0-, 1- and 2-argument forms; with
complex arguments `complex(u, v) = u + v*i`). -/
def complexF : List Val → Except Err Val
  | [] => .ok (.vcomplex 0 0)
  | [v] => do
    let z ← asCplxArg v
    .ok (.vcomplex z.1 z.2)
  | [v, w] => do
    let z ← asCplxArg v
    let u ← asCplxArg w
    .ok (.vcomplex (z.1 - u.2) (z.2 + u.1))
  | _ => .error (arityErr "complex")

/-- The lambda `x.real if isinstance(x, complex) else x`. -/
def realF : List Val → Except Err Val
  | [.vcomplex a _] => .ok (.vreal a)
  | [v] => .ok v
  | _ => .error (arityErr "real")

/-- The lambda `x.imag if isinstance(x, complex) else 0`. -/
def imagF : List Val → Except Err Val
  | [.vcomplex _ b] => .ok (.vreal b)
  | [_] => .ok (.vint 0)
  | _ => .error (arityErr "imag")

/-- The lambda `x.conjugate() if hasattr(x, 'conjugate') else x`
(ints and floats have a `conjugate` method returning themselves;
tuples and dicts do not and pass through unchanged). -/
def conjugateF : List Val → Except Err Val
  | [.vcomplex a b] => .ok (.vcomplex a (-b))
  | [v] => .ok v
  | _ => .error (arityErr "conjugate")

/-- `cmath.phase`. -/
def phaseF : List Val → Except Err Val
  | [v] => do
    let z ← asCplxArg v
    .ok (.vreal (atan2T z.2 z.1))
  | _ => .error (arityErr "phase")

/-- `cmath.polar`: returns the `(magnitude, angle)` tuple of floats. -/
def polarF : List Val → Except Err Val
  | [v] => do
    let z ← asCplxArg v
    .ok (.tup (sqrtD (z.1 * z.1 + z.2 * z.2)) (atan2T z.2 z.1))
  | _ => .error (arityErr "polar")

/-- `cmath.rect(r, phi)`. -/
def rectF : List Val → Except Err Val
  | [v, w] => do
    let r ← asReal v
    let phi ← asReal w
    .ok (.vcomplex (r * cosT phi) (r * sinT phi))
  | _ => .error (arityErr "rect")

/-- A namespace entry of `safe_dict`: a constant value, a function, or
the empty `__builtins__` dict that switches off the builtins. -/
inductive Entry where
  | const (v : Val)
  | fn (g : List Val → Except Err Val)
  | builtinsGuard

/-- The `safe_dict` of `server.py` (lines 53-82), in source order. -/
def safe_dict : List (String × Entry) :=
  [("sin", .fn sinF), ("cos", .fn cosF), ("tan", .fn tanF),
   ("asin", .fn asinF), ("acos", .fn acosF), ("atan", .fn atanF),
   ("atan2", .fn atan2F),
   ("sinh", .fn sinhF), ("cosh", .fn coshF), ("tanh", .fn tanhF),
   ("asinh", .fn asinhF), ("acosh", .fn acoshF), ("atanh", .fn atanhF),
   ("log", .fn logF), ("log10", .fn log10F), ("log2", .fn log2F),
   ("ln", .fn logF),
   ("exp", .fn expF), ("sqrt", .fn sqrtF), ("cbrt", .fn cbrtF),
   ("pow", .fn powF), ("abs", .fn absF),
   ("ceil", .fn ceilF), ("floor", .fn floorF), ("trunc", .fn truncF),
   ("round", .fn roundF),
   ("degrees", .fn degreesF), ("radians", .fn radiansF),
   ("factorial", .fn factorialF),
   ("gcd", .fn gcdF), ("lcm", .fn lcmF),
   ("pi", .const (.vreal piD)), ("e", .const (.vreal eD)),
   ("tau", .const (.vreal tauD)),
   ("inf", .const (.nonfin .pinf)), ("nan", .const (.nonfin .nan)),
   ("complex", .fn complexF),
   ("real", .fn realF), ("imag", .fn imagF),
   ("conjugate", .fn conjugateF),
   ("phase", .fn phaseF), ("polar", .fn polarF), ("rect", .fn rectF),
   ("__builtins__", .builtinsGuard)]

/-- The identifiers exposed by `safe_dict`. -/
def registryNames : List String := safe_dict.map Prod.fst

/-- Lookup in the namespace, as `eval` resolves names. -/
def lookupEntry (n : String) : Option Entry := List.lookup n safe_dict

/-- Tokens of the expression language: numeric literals (with float and
imaginary markers, as in Python's lexer), identifiers, operators,
parentheses and the argument comma. -/
inductive Tok where
  | num (q : ℚ) (isFloat : Bool) (isImag : Bool)
  | id (s : String)
  | plus
  | minus
  | star
  | dstar
  | slash
  | dslash
  | percent
  | lpar
  | rpar
  | comma
  deriving DecidableEq, Repr

/-- Numeric value of a digit character. -/
def digitVal (c : Char) : ℕ := c.toNat - 48

/-- Read a run of decimal digits, returning its value, its length and the
rest of the input. -/
def lexDigits : List Char → ℕ → ℕ → ℕ × ℕ × List Char
  | c :: cs, acc, len =>
    if c.isDigit then lexDigits cs (acc * 10 + digitVal c) (len + 1)
    else (acc, len, c :: cs)
  | [], acc, len => (acc, len, [])

/-- Lex one numeric literal (integer part handed in), covering the
fraction, exponent and imaginary-suffix parts of Python's grammar.
Returns `none` on a malformed literal (e.g. `2e`), which Python reports
as a `SyntaxError`. -/
def lexNumTail (ipart : ℕ) (cs : List Char) :
    Option (ℚ × Bool × Bool × List Char) :=
  let frac :
      Option (ℚ × Bool × List Char) :=
    match cs with
    | '.' :: rest =>
      let d := lexDigits rest 0 0
      some ((ipart : ℚ) + (d.1 : ℚ) / 10 ^ d.2.1, true, d.2.2)
    | _ => some ((ipart : ℚ), false, cs)
  match frac with
  | none => none
  | some (v, isF, rest) =>
    let ex :
        Option (ℚ × Bool × List Char) :=
      match rest with
      | 'e' :: r2 =>
        match r2 with
        | '+' :: r3 =>
          let d := lexDigits r3 0 0
          if d.2.1 = 0 then none else some (v * 10 ^ d.1, true, d.2.2)
        | '-' :: r3 =>
          let d := lexDigits r3 0 0
          if d.2.1 = 0 then none else some (v / 10 ^ d.1, true, d.2.2)
        | _ =>
          let d := lexDigits r2 0 0
          if d.2.1 = 0 then none else some (v * 10 ^ d.1, true, d.2.2)
      | 'E' :: r2 =>
        match r2 with
        | '+' :: r3 =>
          let d := lexDigits r3 0 0
          if d.2.1 = 0 then none else some (v * 10 ^ d.1, true, d.2.2)
        | '-' :: r3 =>
          let d := lexDigits r3 0 0
          if d.2.1 = 0 then none else some (v / 10 ^ d.1, true, d.2.2)
        | _ =>
          let d := lexDigits r2 0 0
          if d.2.1 = 0 then none else some (v * 10 ^ d.1, true, d.2.2)
      | _ => some (v, isF, rest)
    match ex with
    | none => none
    | some (v2, isF2, rest2) =>
      match rest2 with
      | 'j' :: r3 => some (v2, isF2, true, r3)
      | 'J' :: r3 => some (v2, isF2, true, r3)
      | _ => some (v2, isF2, false, rest2)

/-- Identifier characters. -/
def isIdentChar (c : Char) : Bool := c.isAlphanum || c = '_'

/-- The tokenizer: one pass over the characters; any character outside
the expression language is a `SyntaxError` (as in Python's lexer). -/
def tokF : ℕ → List Char → Except Err (List Tok)
  | 0, _ => .error (.otherErr "tokenizer fuel exhausted")
  | _, [] => .ok []
  | fuel + 1, c :: cs =>
    if c = ' ' ∨ c = '\t' ∨ c = '\n' ∨ c = '\r' then tokF fuel cs
    else if c.isDigit then
      let d := lexDigits (c :: cs) 0 0
      match lexNumTail d.1 d.2.2 with
      | none => .error .synErr
      | some (v, isF, isI, rest) => do
        let ts ← tokF fuel rest
        .ok (Tok.num v isF isI :: ts)
    else if c = '.' then
      match cs with
      | c2 :: _ =>
        if c2.isDigit then
          match lexNumTail 0 (c :: cs) with
          | none => .error .synErr
          | some (v, isF, isI, rest) => do
            let ts ← tokF fuel rest
            .ok (Tok.num v isF isI :: ts)
        else .error .synErr
      | [] => .error .synErr
    else if c.isAlpha ∨ c = '_' then
      let name := (c :: cs).takeWhile isIdentChar
      let rest := (c :: cs).dropWhile isIdentChar
      do
        let ts ← tokF fuel rest
        .ok (Tok.id (String.mk name) :: ts)
    else if c = '*' then
      match cs with
      | '*' :: rest => do
        let ts ← tokF fuel rest
        .ok (Tok.dstar :: ts)
      | _ => do
        let ts ← tokF fuel cs
        .ok (Tok.star :: ts)
    else if c = '/' then
      match cs with
      | '/' :: rest => do
        let ts ← tokF fuel rest
        .ok (Tok.dslash :: ts)
      | _ => do
        let ts ← tokF fuel cs
        .ok (Tok.slash :: ts)
    else if c = '+' then do
      let ts ← tokF fuel cs
      .ok (Tok.plus :: ts)
    else if c = '-' then do
      let ts ← tokF fuel cs
      .ok (Tok.minus :: ts)
    else if c = '%' then do
      let ts ← tokF fuel cs
      .ok (Tok.percent :: ts)
    else if c = '(' then do
      let ts ← tokF fuel cs
      .ok (Tok.lpar :: ts)
    else if c = ')' then do
      let ts ← tokF fuel cs
      .ok (Tok.rpar :: ts)
    else if c = ',' then do
      let ts ← tokF fuel cs
      .ok (Tok.comma :: ts)
    else .error .synErr

/-- Tokenize a string. -/
def tokenize (s : String) : Except Err (List Tok) :=
  tokF (s.length + 1) s.toList

mutual
/-- Expression trees of the evaluated language (the spec's grammar):
literals, identifier references, unary sign, the binary arithmetic
operators, and function calls `name(arg, ...)`. -/
inductive Expr where
  | intLit (n : ℤ)
  | floatLit (q : ℚ)
  | imagLit (q : ℚ)
  | ident (s : String)
  | call (f : String) (args : ExprList)
  | neg (e : Expr)
  | pos (e : Expr)
  | add (a b : Expr)
  | sub (a b : Expr)
  | mul (a b : Expr)
  | divi (a b : Expr)
  | fdiv (a b : Expr)
  | emod (a b : Expr)
  | epow (a b : Expr)
  deriving DecidableEq, Repr

/-- Argument lists of a call. -/
inductive ExprList where
  | nil
  | cons (e : Expr) (es : ExprList)
  deriving DecidableEq, Repr
end

mutual
/-- `addsub`: addition level, left-associative. -/
def parseE : ℕ → List Tok → Except Err (Expr × List Tok)
  | 0, _ => .error (.otherErr "parser fuel exhausted")
  | fuel + 1, ts => do
    let p ← parseT fuel ts
    parseELoop fuel p.1 p.2

/-- Left-assoc loop for `+`/`-`. -/
def parseELoop : ℕ → Expr → List Tok → Except Err (Expr × List Tok)
  | 0, _, _ => .error (.otherErr "parser fuel exhausted")
  | fuel + 1, e, ts =>
    match ts with
    | .plus :: rest => do
      let p ← parseT fuel rest
      parseELoop fuel (.add e p.1) p.2
    | .minus :: rest => do
      let p ← parseT fuel rest
      parseELoop fuel (.sub e p.1) p.2
    | _ => .ok (e, ts)

/-- `muldiv`: multiplication level, left-associative, equal precedence
for `*`, `/`, `//`, `%`. -/
def parseT : ℕ → List Tok → Except Err (Expr × List Tok)
  | 0, _ => .error (.otherErr "parser fuel exhausted")
  | fuel + 1, ts => do
    let p ← parseF fuel ts
    parseTLoop fuel p.1 p.2

/-- Left-assoc loop for `*`, `/`, `//`, `%`. -/
def parseTLoop : ℕ → Expr → List Tok → Except Err (Expr × List Tok)
  | 0, _, _ => .error (.otherErr "parser fuel exhausted")
  | fuel + 1, e, ts =>
    match ts with
    | .star :: rest => do
      let p ← parseF fuel rest
      parseTLoop fuel (.mul e p.1) p.2
    | .slash :: rest => do
      let p ← parseF fuel rest
      parseTLoop fuel (.divi e p.1) p.2
    | .dslash :: rest => do
      let p ← parseF fuel rest
      parseTLoop fuel (.fdiv e p.1) p.2
    | .percent :: rest => do
      let p ← parseF fuel rest
      parseTLoop fuel (.emod e p.1) p.2
    | _ => .ok (e, ts)

/-- `factor`: unary sign, binding looser than `**` on its left but
tighter on its right (Python's `u_expr`). -/
def parseF : ℕ → List Tok → Except Err (Expr × List Tok)
  | 0, _ => .error (.otherErr "parser fuel exhausted")
  | fuel + 1, ts =>
    match ts with
    | .minus :: rest => do
      let p ← parseF fuel rest
      .ok (.neg p.1, p.2)
    | .plus :: rest => do
      let p ← parseF fuel rest
      .ok (.pos p.1, p.2)
    | _ => parseP fuel ts

/-- `power`: atom followed by an optional right-associative `** factor`. -/
def parseP : ℕ → List Tok → Except Err (Expr × List Tok)
  | 0, _ => .error (.otherErr "parser fuel exhausted")
  | fuel + 1, ts => do
    let p ← parseA fuel ts
    match p.2 with
    | .dstar :: rest => do
      let q ← parseF fuel rest
      .ok (.epow p.1 q.1, q.2)
    | _ => .ok p

/-- `atom`: literal, parenthesized expression, identifier or call. -/
def parseA : ℕ → List Tok → Except Err (Expr × List Tok)
  | 0, _ => .error (.otherErr "parser fuel exhausted")
  | fuel + 1, ts =>
    match ts with
    | .num q isF isI :: rest =>
      if isI then .ok (.imagLit q, rest)
      else if isF then .ok (.floatLit q, rest)
      else .ok (.intLit q.num, rest)
    | .id n :: .lpar :: .rpar :: rest => .ok (.call n .nil, rest)
    | .id n :: .lpar :: rest => do
      let p ← parseArgs fuel rest
      .ok (.call n p.1, p.2)
    | .id n :: rest => .ok (.ident n, rest)
    | .lpar :: rest => do
      let p ← parseE fuel rest
      match p.2 with
      | .rpar :: rest2 => .ok (p.1, rest2)
      | _ => .error .synErr
    | _ => .error .synErr

/-- Comma-separated argument list, consuming the closing parenthesis. -/
def parseArgs : ℕ → List Tok → Except Err (ExprList × List Tok)
  | 0, _ => .error (.otherErr "parser fuel exhausted")
  | fuel + 1, ts => do
    let p ← parseE fuel ts
    match p.2 with
    | .comma :: rest => do
      let q ← parseArgs fuel rest
      .ok (.cons p.1 q.1, q.2)
    | .rpar :: rest => .ok (.cons p.1 .nil, rest)
    | _ => .error .synErr
end

/-- Parse a complete token list; trailing tokens are a `SyntaxError`. -/
def parseTokens (ts : List Tok) : Except Err Expr := do
  let p ← parseE (8 * ts.length + 16) ts
  match p.2 with
  | [] => .ok p.1
  | _ => .error .synErr

mutual
/-- The tree-walking evaluator (the arithmetic fragment of Python's
`eval` against `safe_dict`): literals build values, identifiers resolve
through the registry only (a missing name is a `NameError`, the
sandboxing guarantee), operators follow the promotion rules of the value
model, and calls evaluate the callee name first, then the arguments
left to right.  The fuel bounds recursion depth, as CPython's recursion
limit does. -/
def evalA : ℕ → Expr → Except Err Val
  | 0, _ => .error (.otherErr "maximum recursion depth exceeded")
  | _ + 1, .intLit n => .ok (.vint n)
  | _ + 1, .floatLit q => .ok (.vreal q)
  | _ + 1, .imagLit q => .ok (.vcomplex 0 q)
  | _ + 1, .ident n =>
    match lookupEntry n with
    | some (.const v) => .ok v
    | some (.fn _) => .ok (.other ("<built-in function " ++ n ++ ">"))
    | some .builtinsGuard => .ok (.other "\x7b\x7d")
    | none => .error (.nameErr n)
  | fuel + 1, .call n args =>
    match lookupEntry n with
    | none => .error (.nameErr n)
    | some (.const _) => do
      let _ ← evalArgs fuel args
      .error (.typeErr "object is not callable")
    | some .builtinsGuard => do
      let _ ← evalArgs fuel args
      .error (.typeErr "object is not callable")
    | some (.fn g) => do
      let vs ← evalArgs fuel args
      g vs
  | fuel + 1, .neg e => do
    let v ← evalA fuel e
    vneg v
  | fuel + 1, .pos e => do
    let v ← evalA fuel e
    vpos v
  | fuel + 1, .add a b => do
    let v ← evalA fuel a
    let w ← evalA fuel b
    vadd v w
  | fuel + 1, .sub a b => do
    let v ← evalA fuel a
    let w ← evalA fuel b
    vsub v w
  | fuel + 1, .mul a b => do
    let v ← evalA fuel a
    let w ← evalA fuel b
    vmul v w
  | fuel + 1, .divi a b => do
    let v ← evalA fuel a
    let w ← evalA fuel b
    vdiv v w
  | fuel + 1, .fdiv a b => do
    let v ← evalA fuel a
    let w ← evalA fuel b
    vfdiv v w
  | fuel + 1, .emod a b => do
    let v ← evalA fuel a
    let w ← evalA fuel b
    vmod v w
  | fuel + 1, .epow a b => do
    let v ← evalA fuel a
    let w ← evalA fuel b
    vpow v w

/-- Evaluate an argument list, left to right, first failure wins. -/
def evalArgs : ℕ → ExprList → Except Err (List Val)
  | 0, _ => .error (.otherErr "maximum recursion depth exceeded")
  | _ + 1, .nil => .ok []
  | fuel + 1, .cons e es => do
    let v ← evalA fuel e
    let vs ← evalArgs fuel es
    .ok (v :: vs)
end

/-- Line 102 of `server.py`: the real part's string in the complex
branch — note it truncates with `int(...)` although the nearness test
uses `round(...)`. -/
def pyRealStr (a : ℚ) : String :=
  if |a - (pyRound a : ℚ)| < EPS then toString (pyInt a) else fltStr a

/-- Line 103 of `server.py`: the imaginary part's string in the complex
branch. -/
def pyImagStr (b : ℚ) : String :=
  if |b - (pyRound b : ℚ)| < EPS then toString (pyInt b) else fltStr b

/-- Line 111 of `server.py`: `abs(float(imag_str))` re-parsed and
re-rendered as a float, so an integral coefficient comes out as `"2.0"`,
not `"2"`. -/
def pyImagAbsStr (b : ℚ) : String :=
  if |b - (pyRound b : ℚ)| < EPS then fltStr |(pyInt b : ℚ)| else fltStr |b|

/-- The result formatter (lines 92-122 of `server.py`).  Formatting the
IEEE specials raises (`round(inf)` is an `OverflowError`, `round(nan)` a
`ValueError`), which the surrounding `try` turns into error strings. -/
def fmtVal : Val → Except Err String
  | .vint n => .ok (toString n)
  | .vreal r =>
    if |r| < EPS then .ok "0"
    else if |r - (pyRound r : ℚ)| < EPS then .ok (toString (pyRound r))
    else .ok (fltStr r)
  | .vcomplex a b =>
    if |b| < EPS then
      if |a| < EPS then .ok "0"
      else if |a - (pyRound a : ℚ)| < EPS then .ok (toString (pyRound a))
      else .ok (fltStr a)
    else
      if a = 0 then
        if b ≠ 1 then .ok (pyImagStr b ++ "j") else .ok "j"
      else
        .ok (pyRealStr a ++
          (if 0 ≤ b then
            (if b ≠ 1 then " + " ++ pyImagStr b ++ "j" else " + j")
          else
            (if b ≠ -1 then " - " ++ pyImagAbsStr b ++ "j" else " - j")))
  | .tup a b => .ok ("(" ++ fltStr a ++ ", " ++ fltStr b ++ ")")
  | .other s => .ok s
  | .nonfin .nan => .error (.valErr "cannot convert float NaN to integer")
  | .nonfin _ => .error .ovfErr

/-- Python `str.replace`: leftmost, non-overlapping, every occurrence. -/
def replaceL (pat rep : List Char) : ℕ → List Char → List Char
  | 0, l => l
  | _ + 1, [] => []
  | fuel + 1, c :: cs =>
    if pat ≠ [] ∧ pat.isPrefixOf (c :: cs) then
      rep ++ replaceL pat rep fuel (List.drop pat.length (c :: cs))
    else c :: replaceL pat rep fuel cs

/-- Python `s.replace(pat, rep)` on strings. -/
def pyReplace (s pat rep : String) : String :=
  String.mk (replaceL pat.toList rep.toList (s.length + 1) s.toList)

/-- The normalization pass (lines 85-86 of `server.py`): textual
substitution of every `^` by `**` and every occurrence of the substring
`mod` by `%`. -/
def normalizeExpr (s : String) : String :=
  pyReplace (pyReplace s "^" "**") "mod" "%"

/-- Normalize, tokenize, parse and evaluate an expression string. -/
def evalString (s : String) : Except Err Val := do
  let ts ← tokenize (normalizeExpr s)
  let e ← parseTokens ts
  evalA (s.length + 32) e

/-- The `scientific_calculator` tool (lines 30-135 of `server.py`):
evaluate, format, and render any failure through the `except` ladder.
It is a total function — every failure becomes a string. -/
def scientific_calculator (s : String) : String :=
  match (do
    let v ← evalString s
    fmtVal v : Except Err String) with
  | .ok t => t
  | .error e => errString e

/-- The evaluate-then-format pipeline inside the `try` block. -/
def calcRun (s : String) : Except Err String := do
  let v ← evalString s
  fmtVal v

/-- Tokenize-and-parse, for stating facts about the parse trees the
evaluator works on. -/
def exprOf (s : String) : Except Err Expr := do
  let ts ← tokenize s
  parseTokens ts

mutual
/-- Whether an expression applies, as a function, an identifier that the
namespace registry does not contain. -/
def hasUnknownCall : Expr → Bool
  | .intLit _ => false
  | .floatLit _ => false
  | .imagLit _ => false
  | .ident _ => false
  | .call f args => if f ∈ registryNames then hasUnknownCallL args else true
  | .neg e => hasUnknownCall e
  | .pos e => hasUnknownCall e
  | .add a b => hasUnknownCall a || hasUnknownCall b
  | .sub a b => hasUnknownCall a || hasUnknownCall b
  | .mul a b => hasUnknownCall a || hasUnknownCall b
  | .divi a b => hasUnknownCall a || hasUnknownCall b
  | .fdiv a b => hasUnknownCall a || hasUnknownCall b
  | .emod a b => hasUnknownCall a || hasUnknownCall b
  | .epow a b => hasUnknownCall a || hasUnknownCall b

/-- List version of `hasUnknownCall`. -/
def hasUnknownCallL : ExprList → Bool
  | .nil => false
  | .cons e es => hasUnknownCall e || hasUnknownCallL es
end

/-- Whether an expression string parses and its tree applies an unknown
identifier as a function. -/
def hasUnknownCallStr (s : String) : Bool :=
  match exprOf (normalizeExpr s) with
  | .ok e => hasUnknownCall e
  | .error _ => false

/-- Whether an evaluation succeeded with a value of Python type
`complex`. -/
def isComplexOk : Except Err Val → Bool
  | .ok (.vcomplex _ _) => true
  | _ => false

/-- Modelled from the spec (section 4.1): the exact set of identifiers
the spec says the Namespace Registry exposes — the five constants, the
unary functions (with `ln` an alias of `log`), the four binary
functions, and `polar`/`rect`.  This is the specification-side list that
claim C5 compares the source registry against. -/
def specC5Names : List String :=
  ["pi", "e", "tau", "inf", "nan",
   "sin", "cos", "tan", "asin", "acos", "atan",
   "sinh", "cosh", "tanh", "asinh", "acosh", "atanh",
   "log", "log10", "log2", "ln", "exp", "sqrt", "cbrt",
   "ceil", "floor", "trunc", "round", "degrees", "radians",
   "factorial", "abs", "real", "imag", "conjugate", "phase",
   "atan2", "pow", "gcd", "lcm",
   "polar", "rect"]

set_option maxRecDepth 100000

/-- Bind on a successful `Except` computation. -/
theorem exceptBind_ok {α β : Type} (a : α) (f : α → Except Err β) :
    (Except.ok a >>= f : Except Err β) = f a := rfl

/-- Bind on a failed `Except` computation. -/
theorem exceptBind_err {α β : Type} (e : Err) (f : α → Except Err β) :
    (Except.error e >>= f : Except Err β) = Except.error e := rfl

/-- `scientific_calculator` is the rendering of `calcRun`. -/
theorem scientific_calculator_run (s : String) :
    scientific_calculator s =
      match calcRun s with
      | .ok t => t
      | .error e => errString e := rfl

/-- Every rendered failure starts with the characters `"Error: "`. -/
theorem errString_starts_with_error (e : Err) :
    ∃ rest, errString e = "Error: " ++ rest := by
  cases e with
  | zeroDiv => exact ⟨"Division by zero", rfl⟩
  | valErr m =>
    refine ⟨"Invalid mathematical operation - " ++ m, ?_⟩
    rw [errString, ← String.append_assoc]
    with_unfolding_all rfl
  | ovfErr => exact ⟨"Result too large to compute", rfl⟩
  | typeErr m =>
    refine ⟨"Invalid expression type - " ++ m, ?_⟩
    rw [errString, ← String.append_assoc]
    with_unfolding_all rfl
  | synErr => exact ⟨"Invalid mathematical expression syntax", rfl⟩
  | nameErr n =>
    refine ⟨"name '" ++ n ++ "' is not defined", ?_⟩
    rw [errString, ← String.append_assoc, ← String.append_assoc]
    with_unfolding_all rfl
  | otherErr m => exact ⟨m, rfl⟩

/-- A successful lookup means the key is among the mapped-out keys. -/
theorem lookup_mem {α : Type} (l : List (String × α)) (n : String) (v : α)
    (h : List.lookup n l = some v) : n ∈ l.map Prod.fst := by
  induction l with
  | nil => simp [List.lookup] at h
  | cons p t ih =>
    obtain ⟨k, b⟩ := p
    rw [List.lookup] at h
    by_cases hb : n = k
    · simp [hb]
    · have hbf : (n == k) = false := beq_eq_false_iff_ne.mpr hb
      rw [hbf] at h
      simp only [List.map, List.mem_cons]
      exact Or.inr (ih h)

/-- A key outside the mapped-out keys never resolves. -/
theorem lookup_none {α : Type} (l : List (String × α)) (n : String)
    (h : n ∉ l.map Prod.fst) : List.lookup n l = none := by
  induction l with
  | nil => rfl
  | cons p t ih =>
    obtain ⟨k, b⟩ := p
    simp only [List.map, List.mem_cons] at h
    push_neg at h
    rw [List.lookup]
    have hbf : (n == k) = false := beq_eq_false_iff_ne.mpr h.1
    rw [hbf]
    exact ih h.2

/-- If an integer is strictly within `1/2` of a rational, Python's
`round` returns exactly that integer. -/
theorem pyRound_eq_of_close (r : ℚ) (n : ℤ) (h : |r - n| < 1 / 2) :
    pyRound r = n := by
  have hf1 : ((⌊r⌋ : ℤ) : ℚ) ≤ r := Int.floor_le r
  have hf2 : r < ⌊r⌋ + 1 := Int.lt_floor_add_one r
  rw [abs_lt] at h
  obtain ⟨hL, hR⟩ := h
  simp only [pyRound]
  split_ifs with h1 h2 h3
  · -- fractional part below 1/2: n = ⌊r⌋
    have l1 : ((⌊r⌋ - 1 : ℤ) : ℚ) < (n : ℚ) := by push_cast; linarith
    have l2 : (n : ℚ) < ((⌊r⌋ + 1 : ℤ) : ℚ) := by push_cast; linarith
    have i1 : ⌊r⌋ - 1 < n := by exact_mod_cast l1
    have i2 : n < ⌊r⌋ + 1 := by exact_mod_cast l2
    omega
  · -- fractional part above 1/2: n = ⌊r⌋ + 1
    have l1 : ((⌊r⌋ : ℤ) : ℚ) < (n : ℚ) := by linarith
    have l2 : (n : ℚ) < ((⌊r⌋ + 2 : ℤ) : ℚ) := by push_cast; linarith
    have i1 : (⌊r⌋ : ℤ) < n := by exact_mod_cast l1
    have i2 : n < ⌊r⌋ + 2 := by exact_mod_cast l2
    omega
  · -- exact tie: impossible within 1/2 of an integer
    exfalso
    have hd : r - ⌊r⌋ = 1 / 2 := le_antisymm (not_lt.mp h2) (not_lt.mp h1)
    have l1 : ((⌊r⌋ : ℤ) : ℚ) < (n : ℚ) := by linarith
    have l2 : (n : ℚ) < ((⌊r⌋ + 1 : ℤ) : ℚ) := by push_cast; linarith
    have i1 : (⌊r⌋ : ℤ) < n := by exact_mod_cast l1
    have i2 : n < ⌊r⌋ + 1 := by exact_mod_cast l2
    omega
  · exfalso
    have hd : r - ⌊r⌋ = 1 / 2 := le_antisymm (not_lt.mp h2) (not_lt.mp h1)
    have l1 : ((⌊r⌋ : ℤ) : ℚ) < (n : ℚ) := by linarith
    have l2 : (n : ℚ) < ((⌊r⌋ + 1 : ℤ) : ℚ) := by push_cast; linarith
    have i1 : (⌊r⌋ : ℤ) < n := by exact_mod_cast l1
    have i2 : n < ⌊r⌋ + 1 := by exact_mod_cast l2
    omega

/-- A successful evaluation never passes through an unknown function
name: the callee is resolved before the call proceeds, and every
subexpression of a successful evaluation evaluated successfully. -/
theorem evalA_ok_no_unknown : ∀ fuel : ℕ,
    (∀ e v, evalA fuel e = .ok v → hasUnknownCall e = false)
    ∧ (∀ es vs, evalArgs fuel es = .ok vs → hasUnknownCallL es = false) := by
  intro fuel
  induction fuel with
  | zero =>
    constructor
    · intro e v h
      simp [evalA] at h
    · intro es vs h
      simp [evalArgs] at h
  | succ f ih =>
    obtain ⟨ihE, ihL⟩ := ih
    constructor
    · intro e v h
      cases e with
      | intLit n => rfl
      | floatLit q => rfl
      | imagLit q => rfl
      | ident s => rfl
      | call n args =>
        simp only [evalA] at h
        cases hl : lookupEntry n with
        | none => rw [hl] at h; simp at h
        | some entry =>
          rw [hl] at h
          have hn : n ∈ registryNames :=
            lookup_mem safe_dict n entry hl
          cases entry with
          | const v0 =>
            cases he : evalArgs f args with
            | error er => rw [he] at h; simp only [exceptBind_err] at h; simp at h
            | ok vs => rw [he] at h; simp only [exceptBind_ok] at h; simp at h
          | builtinsGuard =>
            cases he : evalArgs f args with
            | error er => rw [he] at h; simp only [exceptBind_err] at h; simp at h
            | ok vs => rw [he] at h; simp only [exceptBind_ok] at h; simp at h
          | fn g =>
            cases he : evalArgs f args with
            | error er => rw [he] at h; simp only [exceptBind_err] at h; simp at h
            | ok vs =>
              simp only [hasUnknownCall, if_pos hn]
              exact ihL args vs he
      | neg e1 =>
        simp only [evalA] at h
        cases he : evalA f e1 with
        | error er => rw [he] at h; simp only [exceptBind_err] at h; simp at h
        | ok v1 =>
          simp only [hasUnknownCall]
          exact ihE e1 v1 he
      | pos e1 =>
        simp only [evalA] at h
        cases he : evalA f e1 with
        | error er => rw [he] at h; simp only [exceptBind_err] at h; simp at h
        | ok v1 =>
          simp only [hasUnknownCall]
          exact ihE e1 v1 he
      | add a b =>
        simp only [evalA] at h
        cases he1 : evalA f a with
        | error er => rw [he1] at h; simp only [exceptBind_err] at h; simp at h
        | ok v1 =>
          rw [he1] at h
          simp only [exceptBind_ok] at h
          cases he2 : evalA f b with
          | error er => rw [he2] at h; simp only [exceptBind_err] at h; simp at h
          | ok v2 =>
            simp only [hasUnknownCall, ihE a v1 he1, ihE b v2 he2, Bool.or_self]
      | sub a b =>
        simp only [evalA] at h
        cases he1 : evalA f a with
        | error er => rw [he1] at h; simp only [exceptBind_err] at h; simp at h
        | ok v1 =>
          rw [he1] at h
          simp only [exceptBind_ok] at h
          cases he2 : evalA f b with
          | error er => rw [he2] at h; simp only [exceptBind_err] at h; simp at h
          | ok v2 =>
            simp only [hasUnknownCall, ihE a v1 he1, ihE b v2 he2, Bool.or_self]
      | mul a b =>
        simp only [evalA] at h
        cases he1 : evalA f a with
        | error er => rw [he1] at h; simp only [exceptBind_err] at h; simp at h
        | ok v1 =>
          rw [he1] at h
          simp only [exceptBind_ok] at h
          cases he2 : evalA f b with
          | error er => rw [he2] at h; simp only [exceptBind_err] at h; simp at h
          | ok v2 =>
            simp only [hasUnknownCall, ihE a v1 he1, ihE b v2 he2, Bool.or_self]
      | divi a b =>
        simp only [evalA] at h
        cases he1 : evalA f a with
        | error er => rw [he1] at h; simp only [exceptBind_err] at h; simp at h
        | ok v1 =>
          rw [he1] at h
          simp only [exceptBind_ok] at h
          cases he2 : evalA f b with
          | error er => rw [he2] at h; simp only [exceptBind_err] at h; simp at h
          | ok v2 =>
            simp only [hasUnknownCall, ihE a v1 he1, ihE b v2 he2, Bool.or_self]
      | fdiv a b =>
        simp only [evalA] at h
        cases he1 : evalA f a with
        | error er => rw [he1] at h; simp only [exceptBind_err] at h; simp at h
        | ok v1 =>
          rw [he1] at h
          simp only [exceptBind_ok] at h
          cases he2 : evalA f b with
          | error er => rw [he2] at h; simp only [exceptBind_err] at h; simp at h
          | ok v2 =>
            simp only [hasUnknownCall, ihE a v1 he1, ihE b v2 he2, Bool.or_self]
      | emod a b =>
        simp only [evalA] at h
        cases he1 : evalA f a with
        | error er => rw [he1] at h; simp only [exceptBind_err] at h; simp at h
        | ok v1 =>
          rw [he1] at h
          simp only [exceptBind_ok] at h
          cases he2 : evalA f b with
          | error er => rw [he2] at h; simp only [exceptBind_err] at h; simp at h
          | ok v2 =>
            simp only [hasUnknownCall, ihE a v1 he1, ihE b v2 he2, Bool.or_self]
      | epow a b =>
        simp only [evalA] at h
        cases he1 : evalA f a with
        | error er => rw [he1] at h; simp only [exceptBind_err] at h; simp at h
        | ok v1 =>
          rw [he1] at h
          simp only [exceptBind_ok] at h
          cases he2 : evalA f b with
          | error er => rw [he2] at h; simp only [exceptBind_err] at h; simp at h
          | ok v2 =>
            simp only [hasUnknownCall, ihE a v1 he1, ihE b v2 he2, Bool.or_self]
    · intro es vs h
      cases es with
      | nil => rfl
      | cons e t =>
        simp only [evalArgs] at h
        cases he1 : evalA f e with
        | error er => rw [he1] at h; simp only [exceptBind_err] at h; simp at h
        | ok v1 =>
          rw [he1] at h
          simp only [exceptBind_ok] at h
          cases he2 : evalArgs f t with
          | error er => rw [he2] at h; simp only [exceptBind_err] at h; simp at h
          | ok vs2 =>
            simp only [hasUnknownCallL, ihE e v1 he1, ihL t vs2 he2, Bool.or_self]

/-- C1 counterexample: the claim says a pure imaginary `-1` renders as
bare `"-j"`, but the calculator renders `"-1j"` — the `"-j"` arm of the
conditional on line 106 of `server.py` is unreachable, because the
`imag != 1` test captures `-1` first. -/
theorem claim_C1_counterexample :
    scientific_calculator "-1j" = "-1j" ∧ "-1j" ≠ "-j" := by
  constructor
  · with_unfolding_all rfl
  · decide

/-- C1 (amended): for a complex result with `|imag| ≥ 1e-10` the
formatter combines per-part strings, where the per-part simplification
truncates with `int(...)` (not the real-value rounding rule); a zero real
part with coefficient exactly `1` renders bare `"j"`, but every other
coefficient — including `-1` — renders as `"<b>j"` (so `-1` gives
`"-1j"`, never `"-j"`); with a nonzero real part, coefficients `1`/`-1`
render `" + j"`/`" - j"`, a positive coefficient keeps its simplified
string, and a negative coefficient is re-parsed through
`abs(float(...))` and so loses the integer simplification
(`" - 2.0j"`). -/
theorem claim_C1 :
    fmtVal (.vcomplex 0 1) = .ok "j"
    ∧ (∀ b : ℚ, EPS ≤ |b| → b ≠ 1 →
        fmtVal (.vcomplex 0 b) = .ok (pyImagStr b ++ "j"))
    ∧ (∀ a b : ℚ, a ≠ 0 → EPS ≤ |b| → 0 ≤ b → b ≠ 1 →
        fmtVal (.vcomplex a b) = .ok (pyRealStr a ++ (" + " ++ pyImagStr b ++ "j")))
    ∧ (∀ a : ℚ, a ≠ 0 → fmtVal (.vcomplex a 1) = .ok (pyRealStr a ++ " + j"))
    ∧ (∀ a : ℚ, a ≠ 0 → fmtVal (.vcomplex a (-1)) = .ok (pyRealStr a ++ " - j"))
    ∧ (∀ a b : ℚ, a ≠ 0 → EPS ≤ |b| → b < 0 → b ≠ -1 →
        fmtVal (.vcomplex a b) = .ok (pyRealStr a ++ (" - " ++ pyImagAbsStr b ++ "j"))) := by
  refine ⟨?_, ?_, ?_, ?_, ?_, ?_⟩
  · with_unfolding_all rfl
  · intro b hb hb1
    simp only [fmtVal]
    rw [if_neg (not_lt.mpr hb), if_pos trivial, if_pos hb1]
  · intro a b ha hb hbpos hb1
    simp only [fmtVal]
    rw [if_neg (not_lt.mpr hb), if_neg ha, if_pos hbpos, if_pos hb1]
  · intro a ha
    simp only [fmtVal]
    rw [if_neg (by norm_num [EPS] : ¬ |(1 : ℚ)| < EPS), if_neg ha,
      if_pos (by norm_num : (0 : ℚ) ≤ 1),
      if_neg (by simp : ¬ (1 : ℚ) ≠ 1)]
  · intro a ha
    simp only [fmtVal]
    rw [if_neg (by norm_num [EPS] : ¬ |(-1 : ℚ)| < EPS), if_neg ha,
      if_neg (by norm_num : ¬ (0 : ℚ) ≤ -1),
      if_neg (by simp : ¬ (-1 : ℚ) ≠ -1)]
  · intro a b ha hb hbneg hb1
    simp only [fmtVal]
    rw [if_neg (not_lt.mpr hb), if_neg ha, if_neg (not_le.mpr hbneg), if_pos hb1]

/-- Witness for C1 at concrete inputs. -/
theorem claim_C1_witness :
    fmtVal (.vcomplex 0 (-1)) = .ok "-1j"
    ∧ fmtVal (.vcomplex 3 1) = .ok "3 + j"
    ∧ fmtVal (.vcomplex 3 (-1)) = .ok "3 - j"
    ∧ fmtVal (.vcomplex 3 (-2)) = .ok "3 - 2.0j"
    ∧ fmtVal (.vcomplex 3 2) = .ok "3 + 2j" := by
  refine ⟨?_, ?_, ?_, ?_, ?_⟩
  · exact (claim_C1.2.1 (-1) (by norm_num [EPS]) (by norm_num)).trans
      (by with_unfolding_all rfl)
  · exact (claim_C1.2.2.2.1 3 (by norm_num)).trans (by with_unfolding_all rfl)
  · exact (claim_C1.2.2.2.2.1 3 (by norm_num)).trans (by with_unfolding_all rfl)
  · exact (claim_C1.2.2.2.2.2 3 (-2) (by norm_num) (by norm_num [EPS])
      (by norm_num) (by norm_num)).trans (by with_unfolding_all rfl)
  · exact (claim_C1.2.2.1 3 2 (by norm_num) (by norm_num [EPS]) (by norm_num)
      (by norm_num)).trans (by with_unfolding_all rfl)

/-- C2: standard operator precedence with right-associative
exponentiation — `"2 + 3 * 4"` parses as `2 + (3 * 4)` and evaluates to
`"14"`, and `"2 ^ 3 ^ 2"` (normalized to `**`) parses as `2 ** (3 ** 2)`
and evaluates to `"512"`. -/
theorem claim_C2 :
    scientific_calculator "2 + 3 * 4" = "14"
    ∧ scientific_calculator "2 ^ 3 ^ 2" = "512"
    ∧ exprOf "2 + 3 * 4" =
        .ok (.add (.intLit 2) (.mul (.intLit 3) (.intLit 4)))
    ∧ exprOf "2 ** 3 ** 2" =
        .ok (.epow (.intLit 2) (.epow (.intLit 3) (.intLit 2))) := by
  refine ⟨?_, ?_, ?_, ?_⟩ <;> with_unfolding_all rfl

/-- C3: the real-value formatting rules — `"0"` below the `1e-10`
threshold, the nearest integer without a fractional part when within
`1e-10` of one, the default decimal text otherwise — and a complex value
whose imaginary part is below `1e-10` in magnitude is formatted exactly
as its real part; concretely `sqrt(4)` prints `"2"` (not `"2+0j"`),
`sqrt(16)` prints `"4"`, and `sin(pi/2)` prints `"1"`. -/
theorem claim_C3 :
    (∀ r : ℚ, |r| < EPS → fmtVal (.vreal r) = .ok "0")
    ∧ (∀ r : ℚ, ∀ n : ℤ, EPS ≤ |r| → |r - n| < EPS →
        fmtVal (.vreal r) = .ok (toString n))
    ∧ (∀ r : ℚ, EPS ≤ |r| → (∀ n : ℤ, EPS ≤ |r - n|) →
        fmtVal (.vreal r) = .ok (fltStr r))
    ∧ (∀ a b : ℚ, |b| < EPS → fmtVal (.vcomplex a b) = fmtVal (.vreal a))
    ∧ scientific_calculator "sqrt(4)" = "2"
    ∧ scientific_calculator "sqrt(16)" = "4"
    ∧ scientific_calculator "sin(pi/2)" = "1" := by
  refine ⟨?_, ?_, ?_, ?_, ?_, ?_, ?_⟩
  · intro r h
    simp only [fmtVal]
    rw [if_pos h]
  · intro r n h1 h2
    have hr : pyRound r = n :=
      pyRound_eq_of_close r n (lt_trans h2 (by norm_num [EPS]))
    simp only [fmtVal]
    rw [if_neg (not_lt.mpr h1), hr, if_pos h2]
  · intro r h1 h2
    simp only [fmtVal]
    rw [if_neg (not_lt.mpr h1), if_neg (not_lt.mpr (h2 (pyRound r)))]
  · intro a b h
    simp only [fmtVal]
    rw [if_pos h]
  · with_unfolding_all rfl
  · with_unfolding_all rfl
  · with_unfolding_all rfl

/-- Witness for C3 at concrete inputs (including the value `1.0` that
`sin(pi/2)` produces). -/
theorem claim_C3_witness :
    fmtVal (.vreal 0) = .ok "0"
    ∧ fmtVal (.vreal 2) = .ok "2"
    ∧ fmtVal (.vreal 1) = .ok "1"
    ∧ fmtVal (.vreal (1 / 2)) = .ok (fltStr (1 / 2))
    ∧ fmtVal (.vcomplex 2 0) = fmtVal (.vreal 2) := by
  refine ⟨?_, ?_, ?_, ?_, ?_⟩
  · exact claim_C3.1 0 (by norm_num [EPS])
  · exact (claim_C3.2.1 2 2 (by norm_num [EPS]) (by norm_num [EPS])).trans
      (by with_unfolding_all rfl)
  · exact (claim_C3.2.1 1 1 (by norm_num [EPS]) (by norm_num [EPS])).trans
      (by with_unfolding_all rfl)
  · refine claim_C3.2.2.1 (1 / 2)
      (by rw [abs_of_pos (by norm_num : (0 : ℚ) < 1 / 2)]; norm_num [EPS]) ?_
    intro n
    rcases le_or_lt (n : ℚ) 0 with hn | hn
    · rw [abs_of_nonneg (by linarith)]
      norm_num [EPS]
      linarith
    · have hn1 : (1 : ℚ) ≤ (n : ℚ) := by
        have : (0 : ℤ) < n := by exact_mod_cast hn
        exact_mod_cast this
      rw [abs_of_nonpos (by linarith)]
      norm_num [EPS]
      linarith
  · exact claim_C3.2.2.2.1 2 0 (by norm_num [EPS])

/-- C4: `sqrt` is `cmath.sqrt` and is complex-valued — on every negative
real argument it succeeds with a pure-imaginary result — while `log` is
`math.log` and is real-only — on every negative real argument it raises
`ValueError("math domain error")`, rendered as an invalid-operation
error string; concretely `sqrt(-1)` prints `"j"` and `log(-1)` prints
the invalid-operation error. -/
theorem claim_C4 :
    (∀ x : ℚ, x < 0 → sqrtF [.vreal x] = .ok (.vcomplex 0 (sqrtD (-x))))
    ∧ (∀ x : ℚ, x < 0 → logF [.vreal x] = .error (.valErr "math domain error"))
    ∧ scientific_calculator "sqrt(-1)" = "j"
    ∧ scientific_calculator "log(-1)" =
        "Error: Invalid mathematical operation - math domain error" := by
  refine ⟨?_, ?_, ?_, ?_⟩
  · intro x hx
    simp only [sqrtF, asCplxArg, exceptBind_ok]
    rw [if_pos trivial, if_neg (not_le.mpr hx)]
  · intro x hx
    simp only [logF, asReal, exceptBind_ok]
    rw [if_neg (by exact not_lt.mpr (le_of_lt hx))]
  · with_unfolding_all rfl
  · with_unfolding_all rfl

/-- Witness for C4 at `x = -1`. -/
theorem claim_C4_witness :
    sqrtF [.vreal (-1)] = .ok (.vcomplex 0 1)
    ∧ logF [.vreal (-1)] = .error (.valErr "math domain error") := by
  constructor
  · exact (claim_C4.1 (-1) (by norm_num)).trans (by with_unfolding_all rfl)
  · exact claim_C4.2.1 (-1) (by norm_num)

/-- C5 counterexample: the registry exposes `complex`, which the spec's
fixed set does not list, and a `complex(...)` call is accepted rather
than rejected (the dict also carries the `__builtins__` guard entry). -/
theorem claim_C5_counterexample :
    "complex" ∈ registryNames
    ∧ "complex" ∉ specC5Names
    ∧ scientific_calculator "complex(3,4)" = "3 + 4j" := by
  refine ⟨?_, ?_, ?_⟩
  · decide
  · decide
  · with_unfolding_all rfl

/-- C5 (amended): the registry's name set is exactly the spec's fixed
set plus the `complex` constructor and the `__builtins__` guard entry;
any identifier outside the registry is rejected with a `NameError`
before any evaluation, whether referenced as a value or called as a
function — the evaluator resolves names only through the registry. -/
theorem claim_C5 :
    registryNames.Perm (specC5Names ++ ["complex", "__builtins__"])
    ∧ (∀ n : String, n ∉ registryNames → ∀ fuel : ℕ, ∀ args : ExprList,
        evalA (fuel + 1) (.call n args) = .error (.nameErr n))
    ∧ (∀ n : String, n ∉ registryNames → ∀ fuel : ℕ,
        evalA (fuel + 1) (.ident n) = .error (.nameErr n)) := by
  refine ⟨?_, ?_, ?_⟩
  · exact List.isPerm_iff.mp (by decide)
  · intro n hn fuel args
    have hl : lookupEntry n = none := lookup_none safe_dict n hn
    simp only [evalA, hl]
  · intro n hn fuel
    have hl : lookupEntry n = none := lookup_none safe_dict n hn
    simp only [evalA, hl]

/-- Witness for C5 at the unknown name `"foo"`. -/
theorem claim_C5_witness :
    evalA 1 (.call "foo" .nil) = .error (.nameErr "foo")
    ∧ evalA 1 (.ident "foo") = .error (.nameErr "foo") :=
  ⟨claim_C5.2.1 "foo" (by decide) 0 .nil, claim_C5.2.2 "foo" (by decide) 0⟩

/-- C6: the calculator is a total function returning text — for every
input string the result is either the formatted value of the successful
pipeline, or a string that starts with `"Error: "`; no failure escapes
(the embedding is a total Lean function, so nothing is raised). -/
theorem claim_C6 (s : String) :
    calcRun s = .ok (scientific_calculator s)
    ∨ ∃ rest, scientific_calculator s = "Error: " ++ rest := by
  have h := scientific_calculator_run s
  cases hc : calcRun s with
  | ok t =>
    left
    rw [hc] at h
    simp only [] at h
    exact congrArg Except.ok h.symm
  | error e =>
    right
    rw [hc] at h
    simp only [] at h
    obtain ⟨rest, hr⟩ := errString_starts_with_error e
    exact ⟨rest, by rw [h, hr]⟩

/-- C7: a zero divisor in `/`, `//` or `%` (integer, real or complex
operands alike) raises `ZeroDivisionError`, and any evaluation that ends
in `ZeroDivisionError` is rendered exactly as
`"Error: Division by zero"`, never as a numeric result; concretely
`1/0`. -/
theorem claim_C7 :
    (∀ s : String, evalString s = .error .zeroDiv →
      scientific_calculator s = "Error: Division by zero")
    ∧ (∀ v : Val, (asC v).isSome →
        vdiv v (.vint 0) = .error .zeroDiv
        ∧ vdiv v (.vreal 0) = .error .zeroDiv
        ∧ vdiv v (.vcomplex 0 0) = .error .zeroDiv)
    ∧ (∀ n : ℤ, vfdiv (.vint n) (.vint 0) = .error .zeroDiv)
    ∧ (∀ n : ℤ, vmod (.vint n) (.vint 0) = .error .zeroDiv)
    ∧ (∀ q : ℚ, vfdiv (.vreal q) (.vreal 0) = .error .zeroDiv)
    ∧ (∀ q : ℚ, vmod (.vreal q) (.vreal 0) = .error .zeroDiv)
    ∧ scientific_calculator "1/0" = "Error: Division by zero" := by
  refine ⟨?_, ?_, ?_, ?_, ?_, ?_, ?_⟩
  · intro s h
    have hc : calcRun s = .error .zeroDiv := by
      simp only [calcRun, h, exceptBind_err]
    rw [scientific_calculator_run s, hc]
    rfl
  · intro v hv
    cases v <;> simp [asC] at hv <;> refine ⟨?_, ?_, ?_⟩ <;> simp [vdiv, asC]
  · intro n; simp [vfdiv]
  · intro n; simp [vmod]
  · intro q; simp [vfdiv, asC, isCplx]
  · intro q; simp [vmod, asC, isCplx]
  · with_unfolding_all rfl

/-- Witness for C7 at `"1/0"` and at `1 / 0` on values. -/
theorem claim_C7_witness :
    scientific_calculator "1/0" = "Error: Division by zero"
    ∧ vdiv (.vint 1) (.vint 0) = .error .zeroDiv := by
  constructor
  · exact claim_C7.1 "1/0" (by with_unfolding_all rfl)
  · exact (claim_C7.2.1 (.vint 1) (by simp [asC])).1

/-- C8 counterexample: the claim says only standalone `mod` tokens are
replaced, but the pass is a plain substring replacement — inside the
identifier-like text `"amod"` the trailing `mod` is still rewritten,
yielding `"a%"`. -/
theorem claim_C8_counterexample :
    normalizeExpr "amod" = "a%" ∧ "a%" ≠ "amod" := by
  constructor
  · with_unfolding_all rfl
  · decide

/-- C8 (amended): before tokenizing, one pure-text pass replaces every
`^` with `**` and every occurrence of the substring `mod` — standalone
token or not — with `%`; consequently `2^10` evaluates to `"1024"` and
`10 mod 3` to `"1"`, while an identifier containing `mod`, such as
`modulus(2)`, is corrupted to `%ulus(2)` and fails as a syntax error. -/
theorem claim_C8 :
    scientific_calculator "2^10" = "1024"
    ∧ scientific_calculator "10 mod 3" = "1"
    ∧ normalizeExpr "modulus(2)" = "%ulus(2)"
    ∧ scientific_calculator "modulus(2)" =
        "Error: Invalid mathematical expression syntax" := by
  refine ⟨?_, ?_, ?_, ?_⟩ <;> with_unfolding_all rfl

/-- C9 counterexample: `"1/0 + foo(2)"` uses the unknown identifier
`foo` as a function, yet the calculator reports the earlier division
error, not an unrecognized-identifier error — the claim's universal
form fails when another failure preempts the name lookup. -/
theorem claim_C9_counterexample :
    hasUnknownCallStr "1/0 + foo(2)" = true
    ∧ scientific_calculator "1/0 + foo(2)" = "Error: Division by zero" := by
  constructor <;> with_unfolding_all rfl

/-- C9 (amended): an evaluation that ends in a `NameError` for `n` is
rendered as `"Error: name 'n' is not defined"`; no expression that uses
an unknown identifier as a function ever evaluates to a value (though an
earlier failure may produce a different error string); concretely
`foo(2)` yields the name error. -/
theorem claim_C9 :
    (∀ s n, evalString s = .error (.nameErr n) →
      scientific_calculator s = "Error: name '" ++ n ++ "' is not defined")
    ∧ (∀ fuel : ℕ, ∀ e v, evalA fuel e = .ok v → hasUnknownCall e = false)
    ∧ scientific_calculator "foo(2)" = "Error: name 'foo' is not defined" := by
  refine ⟨?_, ?_, ?_⟩
  · intro s n h
    have hc : calcRun s = .error (.nameErr n) := by
      simp only [calcRun, h, exceptBind_err]
    rw [scientific_calculator_run s, hc]
    simp only [errString]
  · exact fun fuel => (evalA_ok_no_unknown fuel).1
  · with_unfolding_all rfl

/-- Witness for C9 at `"foo(2)"` and a successful evaluation. -/
theorem claim_C9_witness :
    scientific_calculator "foo(2)" = "Error: name 'foo' is not defined"
    ∧ hasUnknownCall (.intLit 7) = false := by
  constructor
  · exact claim_C9.1 "foo(2)" "foo" (by with_unfolding_all rfl)
  · exact claim_C9.2.1 1 (.intLit 7) (.vint 7) rfl

/-- C10: the registry's `cbrt` is the lambda `x ** (1/3)`, so every
negative real argument takes the complex branch of Python's power and
yields the principal complex cube root, not the real one; concretely
`cbrt(-8)` formats as a complex string ending in `"j"`, not `"-2"`. -/
theorem claim_C10 :
    (∀ x : ℚ, x < 0 → isComplexOk (cbrtF [.vreal x]) = true)
    ∧ (scientific_calculator "cbrt(-8)").endsWith "j" = true
    ∧ scientific_calculator "cbrt(-8)" ≠ "-2" := by
  refine ⟨?_, ?_, ?_⟩
  · intro x hx
    have hI : isIntQ ((1 : ℚ) / 3) = false := by with_unfolding_all rfl
    have hx0 : x ≠ 0 := ne_of_lt hx
    have hxnpos : ¬ 0 < x := not_lt.mpr (le_of_lt hx)
    simp only [cbrtF, vpow, asC, isCplx, hI, cpowT]
    simp [hx0, hxnpos, isComplexOk]
  · with_unfolding_all rfl
  · have h : (scientific_calculator "cbrt(-8)" == "-2") = false := by
      with_unfolding_all rfl
    exact ne_of_beq_false h

/-- Witness for C10 at `x = -8`. -/
theorem claim_C10_witness :
    isComplexOk (cbrtF [.vreal (-8)]) = true :=
  claim_C10.1 (-8) (by norm_num)
